import Mathlib

/-!
Verification development for a minimal JVM-subset interpreter written in Go
(class-file loader + frame-based bytecode interpreter).

Shallow embedding notes:
- Go machine integers are modelled as Lean Int with explicit two's-complement
  wrapping (wrap32 / wrap64); unsigned readers produce Nat values.
- Go float32/float64 values appear in this subset only as pushed literals and
  exact arithmetic on them; they are modelled as rationals.
- Go errors returned as values are Res.err; Go panics (out-of-range slice
  index, failed type assertion, nil map write) are Res.crash; exhausted fuel
  (a stand-in for non-termination / unbounded recursion) is Res.timeout.
- The operand stack is a Lean list with the top of the stack at the head
  (the Go code appends pushes at the end of a slice; the two views are the
  same stack read from opposite ends, and the translation below consistently
  maps Go index len-1 to the list head).
- File-system access (os.Open on each class-path entry followed by Load) is
  external input; it is modelled as an oracle field classpath : String ->
  Option LClass in the context, which collapses the first-successful-open-
  and-parse loop of VM.Class into one lookup.
- The field clinits of the machine state is ghost instrumentation: it records
  the class names whose static initializer the registry invoked, in order.
  It is written exactly at the single site where VM.Class invokes <clinit>
  and read by no definition, so it does not influence behaviour.
-/

/-- Two's-complement wrapping of an integer into signed 32-bit range,
mirroring Go int32 arithmetic. -/
def wrap32 (x : Int) : Int :=
  (x + 2147483648) % 4294967296 - 2147483648

/-- Two's-complement wrapping of an integer into signed 64-bit range,
mirroring Go int64 arithmetic. -/
def wrap64 (x : Int) : Int :=
  (x + 9223372036854775808) % 18446744073709551616 - 9223372036854775808

/-- Sign extension of one byte (Go int8(b) conversion from a byte). -/
def sext8 (b : Nat) : Int :=
  if b < 128 then (b : Int) else (b : Int) - 256

/-- Sign extension of a 16-bit word (Go int16 conversion). -/
def sext16 (w : Nat) : Int :=
  if w < 32768 then (w : Int) else (w : Int) - 65536

/-- Big-endian combination of two bytes (binary.BigEndian.Uint16). -/
def be16 (hi lo : Nat) : Nat := hi * 256 + lo

/-!
## Binary reader (loader struct of the Go source)

The Go loader wraps an io.Reader and latches the first error; every read
with a latched error is a no-op returning a zero-filled buffer.  The byte
source is modelled as the list of bytes not yet consumed.
-/

/-- The Go loader struct: remaining input bytes plus the latched error. -/
structure Loader where
  data : List Nat
  err : Option String
deriving Repr, DecidableEq

/-- loader.bytes(n): on a latched error return n zero bytes and consume
nothing; otherwise io.ReadFull, which on short input consumes everything,
zero-pads the buffer and sets the error. -/
def Loader.bytes (l : Loader) (n : Nat) : List Nat × Loader :=
  match l.err with
  | some _ => (List.replicate n 0, l)
  | none =>
    if n ≤ l.data.length then
      (l.data.take n, { l with data := l.data.drop n })
    else
      (l.data.take n ++ List.replicate (n - l.data.length) 0,
       { l with data := [],
                err := some (if l.data.isEmpty then "EOF" else "unexpected EOF") })

/-- loader.u1(). -/
def Loader.u1 (l : Loader) : Nat × Loader :=
  let p := l.bytes 1
  (p.1.getD 0 0, p.2)

/-- loader.u2(): big-endian. -/
def Loader.u2 (l : Loader) : Nat × Loader :=
  let p := l.bytes 2
  (be16 (p.1.getD 0 0) (p.1.getD 1 0), p.2)

/-- loader.u4(): big-endian. -/
def Loader.u4 (l : Loader) : Nat × Loader :=
  let p := l.bytes 4
  (((p.1.getD 0 0 * 256 + p.1.getD 1 0) * 256 + p.1.getD 2 0) * 256 + p.1.getD 3 0, p.2)

/-- loader.u8(): big-endian. -/
def Loader.u8 (l : Loader) : Nat × Loader :=
  let p := l.bytes 8
  (((((((p.1.getD 0 0 * 256 + p.1.getD 1 0) * 256 + p.1.getD 2 0) * 256 +
      p.1.getD 3 0) * 256 + p.1.getD 4 0) * 256 + p.1.getD 5 0) * 256 +
      p.1.getD 6 0) * 256 + p.1.getD 7 0, p.2)

/-!
## Descriptor argument counting (func argc of vm.go)

The Go loop scans desc from index 1; inside an L...; object type it only
looks for the closing semicolon; otherwise a closing parenthesis returns the
count, an L enters object-type mode, and every scanned character (including
each array bracket) increments the count.  Falling off the end returns 0.
-/

/-- The loop body of Go argc: state is the inClass flag and the running
count; input is the remaining characters after the opening parenthesis. -/
def argcAux : Bool → Nat → List Char → Nat
  | _, _, [] => 0
  | true, n, c :: rest =>
    if c = ';' then argcAux false n rest else argcAux true n rest
  | false, n, c :: rest =>
    if c = ')' then n
    else if c = 'L' then argcAux true (n + 1) rest
    else argcAux false (n + 1) rest

/-- func argc(desc string) int of vm.go. -/
def argc (desc : String) : Nat :=
  argcAux false 0 (desc.data.drop 1)

/-!
## Runtime data model (vm.go and the class structures of the loader file)
-/

/-- A runtime value slot (the Go Value interface).  The Go code stores
nil, int8 (BIPUSH), int16 (SIPUSH), int32, int64, float32, float64,
strings (constant-pool loads), object pointers and value slices; object
pointers are modelled as indices into the machine's object store. -/
inductive Value where
  | vnull
  | i8 (i : Int)
  | i16 (i : Int)
  | int (i : Int)
  | long (i : Int)
  | float (q : Rat)
  | double (q : Rat)
  | str (s : String)
  | objRef (r : Nat)
  | array (elems : List Value)
deriving Repr

/-- A constant-pool entry (struct Const): a tag plus every field the Go
struct carries, defaulting to zero values exactly as Go does. -/
structure Konst where
  tag : Nat := 0
  nameIndex : Nat := 0
  classIndex : Nat := 0
  nameAndTypeIndex : Nat := 0
  stringIndex : Nat := 0
  descIndex : Nat := 0
  integer : Int := 0
  longVal : Int := 0
  floatVal : Rat := 0
  doubleVal : Rat := 0
  stringVal : String := ""
deriving Repr

/-- An attribute record (struct Attribute): name and raw payload bytes. -/
structure Attr where
  name : String
  data : List Nat
deriving Repr

/-- A field or method record (struct Field). -/
structure FieldInfo where
  flags : Nat := 0
  name : String := ""
  descriptor : String := ""
  attributes : List Attr := []
deriving Repr

/-- A loaded class (struct Class). -/
structure LClass where
  constPool : List Konst := []
  name : String := ""
  superName : String := ""
  flags : Nat := 0
  interfaces : List String := []
  fields : List FieldInfo := []
  methods : List FieldInfo := []
  attributes : List Attr := []
deriving Repr

/-- Heap record of one Go Object: the embedded immutable Class, the
optional class-object and super-class-object references, and the mutable
field map (an association list with map semantics). -/
structure ObjData where
  klass : LClass
  classInstance : Option Nat := none
  superInstance : Option Nat := none
  fieldVals : List (String × Value) := []
deriving Repr

/-- One interpreter frame (struct Frame); the class providing constant-pool
context is an object-store index, and the operand stack keeps its top at the
head of the list. -/
structure FrameSt where
  classRef : Nat
  ip : Nat := 0
  code : List Nat := []
  locals : List Value := []
  stack : List Value := []
deriving Repr

/-- The mutable machine state: the object store (Go heap reachable from the
VM), the registry (vm.Classes, a list of object-store indices), and the
ghost list of <clinit> invocations made by the registry. -/
structure St where
  objects : List ObjData := []
  classes : List Nat := []
  clinits : List String := []
deriving Repr

/-- Immutable context: the class-path-plus-parser oracle and the native
registry vm.Native keyed by "class.method". -/
structure Ctx where
  classpath : String → Option LClass := fun _ => none
  native : String → Option (List Value → Value) := fun _ => none

/-- Outcome of running a piece of the interpreter: a Go return value with
the updated state, a Go error return, a Go panic, or exhausted fuel. -/
inductive Res (α : Type) where
  | ok (st : St) (val : α)
  | err (msg : String)
  | crash
  | timeout
deriving Repr

/-- What one iteration of the dispatch loop produced: the next frame state,
or a return from the method. -/
inductive Step where
  | next (fr : FrameSt)
  | ret (v : Value)
deriving Repr

/-- Go cp[index-1] on a uint16 index: index 0 wraps to 65535 and panics,
and an index beyond the pool length panics. -/
def cpGet (cp : List Konst) (index : Nat) : Option Konst :=
  if index = 0 then none else cp.get? (index - 1)

/-- ConstPool.Resolve of the Go source, fuelled because a malformed pool can
chain indices in a cycle (where Go would recurse forever). -/
def resolveAux : Nat → List Konst → Nat → Option String
  | 0, _, _ => none
  | fuel + 1, cp, index =>
    match cpGet cp index with
    | none => none
    | some c =>
      if c.tag = 1 then some c.stringVal
      else if c.tag = 8 then resolveAux fuel cp c.stringIndex
      else if c.tag = 7 ∨ c.tag = 12 then resolveAux fuel cp c.nameIndex
      else some ""

/-- ConstPool.Resolve: a chain longer than the pool must revisit an entry,
so pool length plus one steps of fuel reach every terminating case. -/
def cpResolve (cp : List Konst) (index : Nat) : Option String :=
  resolveAux (cp.length + 1) cp index

/-- Go map read o.Fields[name]: absent keys give the zero Value (nil). -/
def fieldGet : List (String × Value) → String → Value
  | [], _ => Value.vnull
  | (k, v) :: rest, name => if k = name then v else fieldGet rest name

/-- Go map write o.Fields[name] = value. -/
def fieldSet : List (String × Value) → String → Value → List (String × Value)
  | [], name, value => [(name, value)]
  | (k, v) :: rest, name, value =>
    if k = name then (name, value) :: rest else (k, v) :: fieldSet rest name value

/-- Object.Method(name, desc): first method whose name matches and whose
descriptor matches when desc is non-empty. -/
def objMethod (o : ObjData) (name desc : String) : Option FieldInfo :=
  (o.klass.methods).find? fun m =>
    m.name == name && (desc == "" || desc == m.descriptor)

/-- The attribute scan of VM.callMethod: the first attribute named Code
whose payload is longer than 8 bytes. -/
def findCode : List Attr → Option Attr
  | [] => none
  | a :: rest => if a.name = "Code" ∧ 8 < a.data.length then some a else findCode rest

/-- The argument-copy loop of VM.callMethod: frame.Locals[i] = args[i] for
each argument in turn; writing past the end of the locals array is the Go
out-of-range panic, reported as none. -/
def copyInto : List Value → Nat → List Value → Option (List Value)
  | ls, _, [] => some ls
  | ls, i, a :: rest =>
    if i < ls.length then copyInto (ls.set i a) (i + 1) rest else none

/-- The registry scan of VM.Class: the first registered class object whose
name matches. -/
def findClass : List Nat → List ObjData → String → Option Nat
  | [], _, _ => none
  | r :: rest, objs, name =>
    match objs.get? r with
    | some o => if o.klass.name = name then some r else findClass rest objs name
    | none => findClass rest objs name

/-- Registry lookup on the machine state. -/
def firstMatch (st : St) (name : String) : Option Nat :=
  findClass st.classes st.objects name

/-- Crash-propagating sequencing for partial reads (Go panics). -/
def withSome : Option α → (α → Res β) → Res β
  | none, _ => Res.crash
  | some a, k => k a

/-- Error-propagating sequencing for nested interpreter calls. -/
def andThen : Res α → (St → α → Res β) → Res β
  | Res.ok st a, k => k st a
  | Res.err e, _ => Res.err e
  | Res.crash, _ => Res.crash
  | Res.timeout, _ => Res.timeout

/-!
## The interpreter (func exec, VM.callMethod, VM.Class of vm.go)

exec, callMethod and Class are mutually recursive in the Go source (an
invoke opcode re-enters callMethod, which re-enters exec; resolving a class
may run its static initializer, re-entering callMethod).  The knot is tied
through a fuel index: level fuel+1 of each function may call level fuel of
any of them, and level 0 is exhausted fuel.  One unit of fuel is consumed
per executed instruction and per nested entry, so every terminating Go
execution is reproduced at a large enough fuel.
-/

/-- The three re-entry points an instruction can use, at one fuel level. -/
structure Fns where
  klass : St → String → Res Nat
  call : St → Nat → FieldInfo → List Value → Res Value
  loop : St → FrameSt → Res Value

/-- The dispatch loop's trailing frame.IP++ (uint32 arithmetic), wrapping
the handler's resulting frame into a next-iteration step. -/
def stepNext (st : St) (fr : FrameSt) : Res Step :=
  Res.ok st (Step.next { fr with ip := (fr.ip + 1) % 4294967296 })

/-- The wide local-load handlers reduced to their common action: push the
indexed local (Go panics when the slot index is out of range). -/
def localOp (st : St) (fr : FrameSt) (idx : Nat) : Res Step :=
  withSome (fr.locals.get? idx) fun v =>
  stepNext st { fr with stack := v :: fr.stack }

/-- LDC / LDC_W / LDC2_W handler: all three read a single operand byte in
the source and push the Resolve text of the indexed pool entry. -/
def ldcOp (st : St) (fr : FrameSt) : Res Step :=
  withSome (fr.code.get? (fr.ip + 1)) fun b =>
  withSome (st.objects.get? fr.classRef) fun frClass =>
  withSome (cpResolve frClass.klass.constPool b) fun s =>
  stepNext st { fr with stack := Value.str s :: fr.stack, ip := fr.ip + 1 }

/-- The shared handler of opcodes 0xB2-0xB8: read a u2 pool index, advance
IP past the operands, resolve class name, member name and descriptor,
ensure the class is loaded, then dispatch on the opcode. -/
def refOp (fns : Fns) (st : St) (fr : FrameSt) (op : Nat) : Res Step :=
  withSome (fr.code.get? (fr.ip + 1)) fun hi =>
  withSome (fr.code.get? (fr.ip + 2)) fun lo =>
  withSome (st.objects.get? fr.classRef) fun frClass =>
  let cp := frClass.klass.constPool
  let fr1 := { fr with ip := fr.ip + 2 }
  withSome (cpGet cp (be16 hi lo)) fun ref =>
  withSome (cpResolve cp ref.classIndex) fun className =>
  withSome (cpGet cp ref.nameAndTypeIndex) fun nt =>
  withSome (cpResolve cp nt.nameIndex) fun mname =>
  withSome (cpResolve cp nt.descIndex) fun desc =>
  andThen (fns.klass st className) fun st1 cRef =>
  if op = 0xB2 then
    withSome (st1.objects.get? cRef) fun cobj =>
    stepNext st1 { fr1 with stack := fieldGet cobj.fieldVals mname :: fr1.stack }
  else if op = 0xB3 then
    match fr1.stack with
    | v :: rest =>
      withSome (st1.objects.get? cRef) fun cobj =>
      stepNext
        { st1 with objects :=
            st1.objects.set cRef { cobj with fieldVals := fieldSet cobj.fieldVals mname v } }
        { fr1 with stack := rest }
    | [] => Res.crash
  else if op = 0xB4 then
    match fr1.stack with
    | Value.objRef r :: rest =>
      withSome (st1.objects.get? r) fun obj =>
      stepNext st1 { fr1 with stack := fieldGet obj.fieldVals mname :: rest }
    | _ => Res.crash
  else if op = 0xB5 then
    match fr1.stack with
    | v :: Value.objRef r :: rest =>
      withSome (st1.objects.get? r) fun obj =>
      stepNext
        { st1 with objects :=
            st1.objects.set r { obj with fieldVals := fieldSet obj.fieldVals mname v } }
        { fr1 with stack := rest }
    | _ => Res.crash
  else if op = 0xB6 ∨ op = 0xB7 then
    let n := argc desc
    if fr1.stack.length < n + 1 then Res.crash
    else
      withSome (st1.objects.get? cRef) fun cobj =>
      match objMethod cobj mname desc with
      | none => Res.err "method not found"
      | some m =>
        andThen (fns.call st1 cRef m ((fr1.stack.take (n + 1)).reverse)) fun st2 _res =>
        stepNext st2 { fr1 with stack := fr1.stack.drop n }
  else if op = 0xB8 then
    let n := argc desc
    if fr1.stack.length < n then Res.crash
    else
      withSome (st1.objects.get? cRef) fun cobj =>
      match objMethod cobj mname desc with
      | none => Res.err "method not found"
      | some m =>
        andThen (fns.call st1 cRef m ((fr1.stack.take n).reverse)) fun st2 _res =>
        stepNext st2 { fr1 with stack := fr1.stack.drop n }
  else Res.crash

/-- The NEW handler (0xBB): resolve the named class through the registry,
allocate an instance whose class object is the resolved singleton, push a
reference to it. -/
def newOp (fns : Fns) (st : St) (fr : FrameSt) : Res Step :=
  withSome (fr.code.get? (fr.ip + 1)) fun hi =>
  withSome (fr.code.get? (fr.ip + 2)) fun lo =>
  withSome (st.objects.get? fr.classRef) fun frClass =>
  let cp := frClass.klass.constPool
  let fr1 := { fr with ip := fr.ip + 2 }
  withSome (cpGet cp (be16 hi lo)) fun entry =>
  withSome (cpResolve cp entry.nameIndex) fun className =>
  andThen (fns.klass st className) fun st1 cRef =>
  withSome (st1.objects.get? cRef) fun cobj =>
  stepNext
    { st1 with objects := st1.objects ++
        [{ klass := cobj.klass, classInstance := some cRef, superInstance := none,
           fieldVals := [] }] }
    { fr1 with stack := Value.objRef st1.objects.length :: fr1.stack }

/-- One iteration of the dispatch loop of func exec: fetch code[IP],
execute the handler, apply the trailing IP++.  The Go switch lists many
opcodes with empty bodies (stores 0x36-0x56, POP 0x57, DDIV 0x6F, IREM
0x70, IINC 0x84, the conversions and comparisons, JSR/RET, 0xB9, 0xBA,
0xBC-0xBE) and has no default clause, so every opcode without an
implemented handler, listed or not, falls through to the same no-op arm
here: nothing happens, and the trailing IP++ moves on. -/
def instrWith (fns : Fns) (st : St) (fr : FrameSt) : Res Step :=
  withSome (fr.code.get? fr.ip) fun op =>
  match op with
  | 0x00 => stepNext st fr
  | 0x01 => stepNext st { fr with stack := Value.vnull :: fr.stack }
  | 0x02 => stepNext st { fr with stack := Value.int (-1) :: fr.stack }
  | 0x03 => stepNext st { fr with stack := Value.int 0 :: fr.stack }
  | 0x04 => stepNext st { fr with stack := Value.int 1 :: fr.stack }
  | 0x05 => stepNext st { fr with stack := Value.int 2 :: fr.stack }
  | 0x06 => stepNext st { fr with stack := Value.int 3 :: fr.stack }
  | 0x07 => stepNext st { fr with stack := Value.int 4 :: fr.stack }
  | 0x08 => stepNext st { fr with stack := Value.int 5 :: fr.stack }
  | 0x09 => stepNext st { fr with stack := Value.long 5 :: fr.stack }
  | 0x0A => stepNext st { fr with stack := Value.long 1 :: fr.stack }
  | 0x0B => stepNext st { fr with stack := Value.float 0 :: fr.stack }
  | 0x0C => stepNext st { fr with stack := Value.float 1 :: fr.stack }
  | 0x0D => stepNext st { fr with stack := Value.float 2 :: fr.stack }
  | 0x0E => stepNext st { fr with stack := Value.double 0 :: fr.stack }
  | 0x0F => stepNext st { fr with stack := Value.double 1 :: fr.stack }
  | 0x10 =>
    withSome (fr.code.get? (fr.ip + 1)) fun b =>
    stepNext st { fr with stack := Value.i8 (sext8 b) :: fr.stack, ip := fr.ip + 1 }
  | 0x11 =>
    withSome (fr.code.get? (fr.ip + 1)) fun hi =>
    withSome (fr.code.get? (fr.ip + 2)) fun lo =>
    stepNext st { fr with stack := Value.i16 (sext16 (be16 hi lo)) :: fr.stack,
                          ip := fr.ip + 2 }
  | 0x12 => ldcOp st fr
  | 0x13 => ldcOp st fr
  | 0x14 => ldcOp st fr
  | 0x15 | 0x16 | 0x17 | 0x18 | 0x19 =>
    withSome (fr.code.get? (fr.ip + 1)) fun idx =>
    withSome (fr.locals.get? idx) fun v =>
    stepNext st { fr with stack := v :: fr.stack, ip := fr.ip + 1 }
  | 0x1A | 0x1E | 0x22 | 0x26 | 0x2A => localOp st fr 0
  | 0x1B | 0x1F | 0x23 | 0x27 | 0x2B => localOp st fr 1
  | 0x1C | 0x20 | 0x24 | 0x28 | 0x2C => localOp st fr 2
  | 0x1D | 0x21 | 0x25 | 0x29 | 0x2D => localOp st fr 3
  | 0x2E | 0x2F | 0x30 | 0x31 | 0x32 | 0x33 | 0x34 | 0x35 =>
    match fr.stack with
    | Value.array es :: Value.int i :: rest =>
      if 0 ≤ i then
        withSome (es.get? i.toNat) fun v =>
        stepNext st { fr with stack := v :: rest }
      else Res.crash
    | _ => Res.crash
  | 0x59 =>
    match fr.stack with
    | v :: rest => stepNext st { fr with stack := v :: v :: rest }
    | [] => Res.crash
  | 0x5F =>
    match fr.stack with
    | a :: b :: rest => stepNext st { fr with stack := b :: a :: rest }
    | _ => Res.crash
  | 0x60 =>
    match fr.stack with
    | Value.int a :: Value.int b :: rest =>
      stepNext st { fr with stack := Value.int (wrap32 (a + b)) :: rest }
    | _ => Res.crash
  | 0x61 =>
    match fr.stack with
    | Value.long a :: Value.long b :: rest =>
      stepNext st { fr with stack := Value.long (wrap64 (a + b)) :: rest }
    | _ => Res.crash
  | 0x62 =>
    match fr.stack with
    | Value.float a :: Value.float b :: rest =>
      stepNext st { fr with stack := Value.float (a + b) :: rest }
    | _ => Res.crash
  | 0x63 =>
    match fr.stack with
    | Value.double a :: Value.double b :: rest =>
      stepNext st { fr with stack := Value.double (a + b) :: rest }
    | _ => Res.crash
  | 0x64 =>
    match fr.stack with
    | Value.int a :: Value.int b :: rest =>
      stepNext st { fr with stack := Value.int (wrap32 (b - a)) :: rest }
    | _ => Res.crash
  | 0x65 =>
    match fr.stack with
    | Value.long a :: Value.long b :: rest =>
      stepNext st { fr with stack := Value.long (wrap64 (b - a)) :: rest }
    | _ => Res.crash
  | 0x66 =>
    match fr.stack with
    | Value.float a :: Value.float b :: rest =>
      stepNext st { fr with stack := Value.float (b - a) :: rest }
    | _ => Res.crash
  | 0x67 =>
    match fr.stack with
    | Value.double a :: Value.double b :: rest =>
      stepNext st { fr with stack := Value.double (b - a) :: rest }
    | _ => Res.crash
  | 0x68 =>
    match fr.stack with
    | Value.int a :: Value.int b :: rest =>
      stepNext st { fr with stack := Value.int (wrap32 (a * b)) :: rest }
    | _ => Res.crash
  | 0x69 =>
    match fr.stack with
    | Value.long a :: Value.long b :: rest =>
      stepNext st { fr with stack := Value.long (wrap64 (a * b)) :: rest }
    | _ => Res.crash
  | 0x6A =>
    match fr.stack with
    | Value.float a :: Value.float b :: rest =>
      stepNext st { fr with stack := Value.float (a * b) :: rest }
    | _ => Res.crash
  | 0x6B =>
    match fr.stack with
    | Value.double a :: Value.double b :: rest =>
      stepNext st { fr with stack := Value.double (a * b) :: rest }
    | _ => Res.crash
  | 0xA7 =>
    withSome (fr.code.get? (fr.ip + 1)) fun hi =>
    withSome (fr.code.get? (fr.ip + 2)) fun lo =>
    stepNext st { fr with ip := (fr.ip + 4294967293 + be16 hi lo) % 4294967296 }
  | 0xAC | 0xAD | 0xAE | 0xAF | 0xB0 =>
    match fr.stack with
    | v :: _ => Res.ok st (Step.ret v)
    | [] => Res.crash
  | 0xB1 => Res.ok st (Step.ret Value.vnull)
  | 0xB2 | 0xB3 | 0xB4 | 0xB5 | 0xB6 | 0xB7 | 0xB8 => refOp fns st fr op
  | 0xBB => newOp fns st fr
  | _ => stepNext st fr

/-- One unfolding of the for-loop of func exec. -/
def loopBody (fns : Fns) (st : St) (fr : FrameSt) : Res Value :=
  match instrWith fns st fr with
  | Res.ok st1 (Step.next fr1) => fns.loop st1 fr1
  | Res.ok st1 (Step.ret v) => Res.ok st1 v
  | Res.err e => Res.err e
  | Res.crash => Res.crash
  | Res.timeout => Res.timeout

/-- VM.callMethod: find the first usable Code attribute; build a frame with
max_locals local slots (payload bytes 2-3, big-endian), copy the arguments
into the leading slots, run the dispatch loop on the payload past the 8
header bytes.  With no Code attribute, fall back to the native registry
keyed by class name and method name, else fail. -/
def callMethodBody (ctx : Ctx) (fns : Fns) (st : St) (r : Nat) (m : FieldInfo)
    (args : List Value) : Res Value :=
  match findCode m.attributes with
  | some a =>
    let maxLocals := be16 (a.data.getD 2 0) (a.data.getD 3 0)
    match copyInto (List.replicate maxLocals Value.vnull) 0 args with
    | none => Res.crash
    | some locals =>
      fns.loop st { classRef := r, ip := 0, code := a.data.drop 8,
                    locals := locals, stack := [] }
  | none =>
    withSome (st.objects.get? r) fun obj =>
    match ctx.native (obj.klass.name ++ "." ++ m.name) with
    | some f => Res.ok st (f args)
    | none => Res.err "method code not found"

/-- VM.Class: scan the registry; on a miss consult the class path, resolve
the super first, register the new class object, then run a declared
<clinit>()V and propagate its error.  The ghost clinits list records the
invocation. -/
def vmClassBody (ctx : Ctx) (fns : Fns) (st : St) (name : String) : Res Nat :=
  match firstMatch st name with
  | some r => Res.ok st r
  | none =>
    match ctx.classpath name with
    | none => Res.err "class not found"
    | some c =>
      andThen
        (if c.superName = "" then Res.ok st none
         else andThen (fns.klass st c.superName) fun st1 sref => Res.ok st1 (some sref))
        fun st1 superRef =>
      let obj : ObjData := { klass := c, classInstance := none,
                             superInstance := superRef, fieldVals := [] }
      let r := st1.objects.length
      let st2 := { st1 with objects := st1.objects ++ [obj],
                            classes := st1.classes ++ [r] }
      match objMethod obj "<clinit>" "()V" with
      | some m =>
        andThen (fns.call { st2 with clinits := st2.clinits ++ [name] } r m []) fun st3 _ =>
        Res.ok st3 r
      | none => Res.ok st2 r

/-- All three entry points at fuel level 0: exhausted. -/
def timeoutFns : Fns :=
  { klass := fun _ _ => Res.timeout,
    call := fun _ _ _ _ => Res.timeout,
    loop := fun _ _ => Res.timeout }

/-- The interpreter at each fuel level, tying the mutual recursion of
exec / callMethod / Class through structural recursion on the fuel. -/
def fnsAt (ctx : Ctx) : Nat → Fns
  | 0 => timeoutFns
  | fuel + 1 =>
    { klass := vmClassBody ctx (fnsAt ctx fuel),
      call := callMethodBody ctx (fnsAt ctx fuel),
      loop := loopBody (fnsAt ctx fuel) }

/-- One dispatch-loop iteration of func exec at a given fuel budget for
nested calls. -/
def execInstr (ctx : Ctx) (fuel : Nat) (st : St) (fr : FrameSt) : Res Step :=
  instrWith (fnsAt ctx fuel) st fr

/-- func exec at a given fuel budget. -/
def execLoop (ctx : Ctx) (fuel : Nat) (st : St) (fr : FrameSt) : Res Value :=
  (fnsAt ctx fuel).loop st fr

/-- VM.callMethod at a given fuel budget. -/
def callMethod (ctx : Ctx) (fuel : Nat) (st : St) (r : Nat) (m : FieldInfo)
    (args : List Value) : Res Value :=
  (fnsAt ctx fuel).call st r m args

/-- VM.Class at a given fuel budget. -/
def vmClass (ctx : Ctx) (fuel : Nat) (st : St) (name : String) : Res Nat :=
  (fnsAt ctx fuel).klass st name

/-- The pre-registered root class of func New: java/lang/Object with a
single <init>()V method bound to a null-returning native. -/
def rootClass : LClass :=
  { name := "java/lang/Object",
    methods := [{ name := "<init>", descriptor := "()V" }] }

/-- The machine state right after func New: the root class object is the
only registered class. -/
def initSt : St :=
  { objects := [{ klass := rootClass }], classes := [0] }

/-- The native registry right after func New. -/
def initNative : String → Option (List Value → Value) :=
  fun key => if key = "java/lang/Object.<init>" then some (fun _ => Value.vnull) else none

/-!
## Reference vocabulary for descriptor parameters

To state how argc treats a well-formed parameter list, parameter types are
rendered to their descriptor text and given the slot count that the Go scan
actually assigns (each array-bracket prefix character counts, object types
count one in total).
-/

/-- A JVM parameter type: a base-type character, an object type, or an
array of a component type. -/
inductive JType where
  | prim (c : Char)
  | obj (name : String)
  | arr (t : JType)

/-- Descriptor text of a parameter type. -/
def renderT : JType → List Char
  | JType.prim c => [c]
  | JType.obj n => 'L' :: (n.data ++ [';'])
  | JType.arr t => '[' :: renderT t

/-- The count the Go argc scan assigns to one parameter: base and object
types one, and every array-bracket prefix character one more. -/
def slots : JType → Nat
  | JType.prim _ => 1
  | JType.obj _ => 1
  | JType.arr t => 1 + slots t

/-- The eight base-type descriptor characters. -/
def baseChars : List Char := ['B', 'C', 'D', 'F', 'I', 'J', 'S', 'Z']

/-- Well-formedness of a rendered parameter: base characters are the real
base-type letters and object names contain no semicolon. -/
def wfType : JType → Prop
  | JType.prim c => c ∈ baseChars
  | JType.obj n => ';' ∉ n.data
  | JType.arr t => wfType t

/-!
## Concrete machine configurations used by the claim theorems
-/

/-- An empty machine state. -/
def emptySt : St := {}

/-- A context with no class path and no natives. -/
def emptyCtx : Ctx := {}

/-- Constant pool of the invoking class for the invoke scenarios: a class K
with a method f of descriptor ()I (entries 1-6) and a method g of the same
descriptor (entries 7-9). -/
def c1Pool : List Konst :=
  [ { tag := 1, stringVal := "K" },
    { tag := 1, stringVal := "f" },
    { tag := 1, stringVal := "()I" },
    { tag := 7, nameIndex := 1 },
    { tag := 12, nameIndex := 2, descIndex := 3 },
    { tag := 10, classIndex := 4, nameAndTypeIndex := 5 },
    { tag := 1, stringVal := "g" },
    { tag := 12, nameIndex := 7, descIndex := 3 },
    { tag := 10, classIndex := 4, nameAndTypeIndex := 8 } ]

/-- The invoked class: f (max_locals 0) and g (max_locals 1) both run
ICONST_5; IRETURN, returning the int 5. -/
def c1K : LClass :=
  { name := "K",
    methods :=
      [ { name := "f", descriptor := "()I",
          attributes := [{ name := "Code", data := [0, 0, 0, 0, 0, 0, 0, 2, 0x08, 0xAC] }] },
        { name := "g", descriptor := "()I",
          attributes := [{ name := "Code", data := [0, 0, 0, 1, 0, 0, 0, 2, 0x08, 0xAC] }] } ] }

/-- The invoking class, holding the constant pool. -/
def c1Main : LClass := { name := "Main", constPool := c1Pool }

/-- Machine state with the invoking class (ref 0) and K (ref 1) registered. -/
def c1St : St := { objects := [ { klass := c1Main }, { klass := c1K } ], classes := [0, 1] }

/-- Frame about to execute INVOKESTATIC K.f()I then RETURN. -/
def c1FrS : FrameSt := { classRef := 0, code := [0xB8, 0x00, 0x06, 0xB1] }

/-- Frame about to execute INVOKEVIRTUAL K.g()I with the receiver pushed. -/
def c1FrV : FrameSt :=
  { classRef := 0, code := [0xB6, 0x00, 0x09, 0xB1], stack := [Value.objRef 1] }

/-- Frame with GOTO +5 at offset 0. -/
def c2Fr : FrameSt := { classRef := 0, code := [0xA7, 0x00, 0x05, 0x00, 0x00, 0x00] }

/-- Frame with GOTO -3 at offset 3 (branch bytes 0xFF 0xFD). -/
def c2FrNeg : FrameSt :=
  { classRef := 0, ip := 3, code := [0x00, 0x00, 0x00, 0xA7, 0xFF, 0xFD] }

/-- Frame about to execute LCONST_0 on an empty stack. -/
def c4Fr : FrameSt := { classRef := 0, code := [0x09] }

/-- Frame about to execute IDIV with dividend 6 and divisor 0, then RETURN. -/
def c5Fr : FrameSt :=
  { classRef := 0, code := [0x6C, 0xB1], stack := [Value.int 0, Value.int 6] }

/-- Frame about to execute LDIV with dividend 6 and divisor 0, then RETURN. -/
def c5FrL : FrameSt :=
  { classRef := 0, code := [0x6D, 0xB1], stack := [Value.long 0, Value.long 6] }

/-- Frame about to execute the unimplemented opcode 0xCC, then RETURN. -/
def c6Fr : FrameSt := { classRef := 0, code := [0xCC, 0xB1], stack := [Value.int 7] }

/-- A class artifact whose internal name B differs from the name A it is
looked up under. -/
def c7B : LClass := { name := "B" }

/-- Class path serving the mismatched artifact for the name A. -/
def c7CtxBad : Ctx := { classpath := fun n => if n = "A" then some c7B else none }

/-- State after the first Class("A") against the mismatched artifact: the
new class object sits at ref 1 but is registered under its internal name B. -/
def c7StB1 : St :=
  { objects := [ { klass := rootClass }, { klass := c7B } ], classes := [0, 1] }

/-- State after the second Class("A"): a duplicate class object at ref 2. -/
def c7StB2 : St :=
  { objects := [ { klass := rootClass }, { klass := c7B }, { klass := c7B } ],
    classes := [0, 1, 2] }

/-- A well-named class artifact for the name A. -/
def c7A : LClass := { name := "A" }

/-- Class path serving the well-named artifact. -/
def c7CtxG : Ctx := { classpath := fun n => if n = "A" then some c7A else none }

/-- State after Class("A") against the well-named artifact. -/
def c7StG : St :=
  { objects := [ { klass := rootClass }, { klass := c7A } ], classes := [0, 1] }

/-- A loader with a latched error and input left over. -/
def c8L : Loader := { data := [1, 2, 3], err := some "EOF" }

/-- A method whose Code attribute declares max_locals 1 and whose body is a
single RETURN. -/
def c10M : FieldInfo :=
  { name := "h", descriptor := "(II)V",
    attributes := [{ name := "Code", data := [0, 0, 0, 1, 0, 0, 0, 1, 0xB1] }] }

theorem argcAux_skip_object (cs : List Char) (rest : List Char) (n : Nat)
    (h : ';' ∉ cs) : argcAux true n (cs ++ ';' :: rest) = argcAux false n rest := by
  induction cs with
  | nil => simp [argcAux]
  | cons c cs ih =>
    have hc : ¬ c = ';' := fun hc => h (by simp [hc])
    have hcs : ';' ∉ cs := fun hm => h (List.mem_cons_of_mem _ hm)
    simp [argcAux, hc, ih hcs]

theorem argcAux_consume (t : JType) (hwf : wfType t) (n : Nat) (rest : List Char) :
    argcAux false n (renderT t ++ rest) = argcAux false (n + slots t) rest := by
  induction t generalizing n with
  | prim c =>
    have hc : c ∈ baseChars := hwf
    fin_cases hc <;> simp [renderT, slots, argcAux]
  | obj s =>
    have hs : ';' ∉ s.data := hwf
    show argcAux false n (('L' :: (s.data ++ [';'])) ++ rest) = argcAux false (n + 1) rest
    rw [List.cons_append, List.append_assoc, List.singleton_append]
    rw [show argcAux false n ('L' :: (s.data ++ ';' :: rest)) =
          argcAux true (n + 1) (s.data ++ ';' :: rest) from by simp [argcAux]]
    exact argcAux_skip_object s.data rest (n + 1) hs
  | arr t ih =>
    have ht : wfType t := hwf
    show argcAux false n (('[' :: renderT t) ++ rest) = argcAux false (n + (1 + slots t)) rest
    rw [List.cons_append]
    rw [show argcAux false n ('[' :: (renderT t ++ rest)) =
          argcAux false (n + 1) (renderT t ++ rest) from by simp [argcAux]]
    rw [ih ht (n + 1)]
    ring_nf

theorem argcAux_params (ts : List JType) (hwf : ∀ t ∈ ts, wfType t) (n : Nat)
    (ret : List Char) :
    argcAux false n ((ts.map renderT).flatten ++ ')' :: ret) = n + (ts.map slots).sum := by
  induction ts generalizing n with
  | nil => simp [argcAux]
  | cons t ts ih =>
    have h1 : wfType t := hwf t (List.mem_cons_self t ts)
    have h2 : ∀ u ∈ ts, wfType u := fun u hu => hwf u (List.mem_cons_of_mem _ hu)
    simp only [List.map_cons, List.flatten_cons, List.append_assoc]
    rw [argcAux_consume t h1 n, ih h2]
    simp only [List.map_cons, List.sum_cons]
    omega

/-!
## Bounds behaviour of the argument-copy loop of VM.callMethod
-/

theorem copyInto_overflow (args : List Value) : ∀ (ls : List Value) (i : Nat),
    args ≠ [] → ls.length < i + args.length → copyInto ls i args = none := by
  induction args with
  | nil => intro ls i h _; exact absurd rfl h
  | cons a rest ih =>
    intro ls i _ hlen
    simp only [List.length_cons] at hlen
    by_cases hi : i < ls.length
    · have hne : rest ≠ [] := by
        intro h; subst h; simp only [List.length_nil] at hlen; omega
      have hlt : (ls.set i a).length < (i + 1) + rest.length := by
        simp only [List.length_set]; omega
      simp [copyInto, hi, ih (ls.set i a) (i + 1) hne hlt]
    · simp [copyInto, hi]

theorem copyInto_ok (args : List Value) : ∀ (ls : List Value) (i : Nat),
    i + args.length ≤ ls.length →
    ∃ L, copyInto ls i args = some L ∧ L.length = ls.length ∧
      (∀ j, j < args.length → L.get? (i + j) = args.get? j) ∧
      (∀ j, j < i → L.get? j = ls.get? j) := by
  induction args with
  | nil =>
    intro ls i _
    exact ⟨ls, rfl, rfl, fun j hj => absurd hj (Nat.not_lt_zero j), fun _ _ => rfl⟩
  | cons a rest ih =>
    intro ls i hlen
    simp only [List.length_cons] at hlen
    have hi : i < ls.length := by omega
    have hlen' : (i + 1) + rest.length ≤ (ls.set i a).length := by
      simp only [List.length_set]; omega
    obtain ⟨L, hL, hLlen, hmid, hlow⟩ := ih (ls.set i a) (i + 1) hlen'
    simp only [List.length_set] at hLlen
    refine ⟨L, by simp [copyInto, hi, hL], hLlen, ?_, ?_⟩
    · intro j hj
      cases j with
      | zero =>
        have h1 : L.get? i = (ls.set i a).get? i := hlow i (Nat.lt_succ_self i)
        have h2 : (ls.set i a).get? i = some a := by
          rw [List.get?_set_of_lt' a ls hi]; simp
        show L.get? (i + 0) = some a
        rw [Nat.add_zero, h1, h2]
      | succ j =>
        have hj' : j < rest.length := by
          simp only [List.length_cons] at hj; omega
        have h1 := hmid j hj'
        show L.get? (i + (j + 1)) = rest.get? j
        rw [show i + (j + 1) = i + 1 + j from by omega]
        exact h1
    · intro j hj
      have h1 : L.get? j = (ls.set i a).get? j := hlow j (Nat.lt_succ_of_lt hj)
      have h2 : (ls.set i a).get? j = ls.get? j := by
        rw [List.get?_set_of_lt' a ls hi]
        simp [Nat.ne_of_gt hj]
      rw [h1, h2]

/-!
## Claim theorems
-/

/-- Claim C1: the claim states that after an INVOKEVIRTUAL / INVOKESPECIAL
/ INVOKESTATIC handler completes for a method whose descriptor has a
non-void return, the invoker's operand stack has the returned value on top.
This theorem evaluates the code at the failing inputs: invoking K.f()I via
INVOKESTATIC (which returns the int 5) leaves the stack empty, and invoking
K.g()I via INVOKEVIRTUAL leaves only the receiver on the stack --- the
result is discarded and never pushed, so the claim fails on the code. -/
theorem claim_C1_invoke_discards_result :
    execInstr emptyCtx 10 c1St c1FrS =
      Res.ok c1St (Step.next { c1FrS with ip := 3 }) ∧
    execInstr emptyCtx 10 c1St c1FrV =
      Res.ok c1St (Step.next { c1FrV with ip := 3 }) :=
  ⟨rfl, rfl⟩

/-- Claim C2: the claim states that a GOTO at offset p with signed 16-bit
offset d transfers control to offset p + d, for negative d as well.  This
theorem evaluates the code at the failing inputs: GOTO +5 at p = 0 makes
the next fetch happen at offset 3 (p + d - 2), not 5, and GOTO -3 at p = 3
(operand bytes 0xFF 0xFD) makes the next fetch happen at offset 65534
(zero-extension instead of sign-extension, then the same -2 bias), not 0;
so the claim fails on the code. -/
theorem claim_C2_goto_misses_target :
    execInstr emptyCtx 0 emptySt c2Fr =
      Res.ok emptySt (Step.next { c2Fr with ip := 3 }) ∧
    execInstr emptyCtx 0 emptySt c2FrNeg =
      Res.ok emptySt (Step.next { c2FrNeg with ip := 65534 }) :=
  ⟨rfl, rfl⟩

/-- Claim C3, counterexample: the claim asserts that array-bracket prefix
characters are absorbed without incrementing the count, so that
argc("([I)V") = 1 and argc("(I[JLjava/lang/String;)V") = 3.  The code
counts each bracket: the values are 2 and 4. -/
theorem claim_C3_counterexample :
    argc "([I)V" = 2 ∧ ¬ argc "([I)V" = 1 ∧
    argc "(I[JLjava/lang/String;)V" = 4 ∧ ¬ argc "(I[JLjava/lang/String;)V" = 3 :=
  ⟨rfl, by decide, rfl, by decide⟩

/-- Claim C3 (amended): for every method descriptor whose parameter list is
a well-formed sequence of base, object and array types, argc counts one per
base-type character, one for a whole L...; object sequence, and one more
for EACH array-bracket prefix character (brackets are not absorbed);
scanning stops at the closing parenthesis.  In particular
argc("([I)V") = 2 and argc("(I[JLjava/lang/String;)V") = 4. -/
theorem claim_C3_amended (ts : List JType) (ret : List Char)
    (hwf : ∀ t ∈ ts, wfType t) :
    argc (String.mk ('(' :: ((ts.map renderT).flatten ++ ')' :: ret))) =
      (ts.map slots).sum := by
  show argcAux false 0 ((ts.map renderT).flatten ++ ')' :: ret) = (ts.map slots).sum
  rw [argcAux_params ts hwf 0 ret, Nat.zero_add]

/-- Witness for the amended claim C3 at the concrete descriptor ([I)V:
one parameter, an int array, counted as 2 slots. -/
theorem claim_C3_amended_witness :
    argc (String.mk ('(' :: (([JType.arr (JType.prim 'I')].map renderT).flatten ++
      ')' :: ['V']))) = 2 :=
  claim_C3_amended [JType.arr (JType.prim 'I')] ['V']
    (by
      intro t ht
      rw [List.mem_singleton] at ht
      subst ht
      show 'I' ∈ baseChars
      decide)

/-- Claim C4: the claim (and the JVM) has LCONST_0 (0x09) push the 64-bit
integer 0.  This theorem evaluates the code at the failing input: the
handler pushes the 64-bit integer 5, so the claim fails on the code. -/
theorem claim_C4_lconst0_pushes_five :
    execInstr emptyCtx 0 emptySt c4Fr =
      Res.ok emptySt (Step.next { c4Fr with ip := 1, stack := [Value.long 5] }) :=
  rfl

/-- Claim C5: the claim states that IDIV (0x6C) / LDIV (0x6D) with a zero
divisor make the interpreter return a runtime error.  This theorem
evaluates the code at the failing input: neither opcode has a handler, so
with divisor 0 on top of the stack the instruction is a silent no-op (the
stack is not even popped) and the enclosing method runs on to completion
without any error. -/
theorem claim_C5_integer_div_unimplemented :
    execInstr emptyCtx 0 emptySt c5Fr =
      Res.ok emptySt (Step.next { c5Fr with ip := 1 }) ∧
    execInstr emptyCtx 0 emptySt c5FrL =
      Res.ok emptySt (Step.next { c5FrL with ip := 1 }) ∧
    execLoop emptyCtx 2 emptySt c5Fr = Res.ok emptySt Value.vnull ∧
    execLoop emptyCtx 2 emptySt c5FrL = Res.ok emptySt Value.vnull :=
  ⟨rfl, rfl, rfl, rfl⟩

/-- Claim C6: the claim states that fetching an opcode with no implemented
handler makes exec return an error.  This theorem evaluates the code at the
failing input: the switch has no default clause, so the unknown opcode 0xCC
is silently skipped (state unchanged, IP advances) and the method completes
normally; the claim fails on the code. -/
theorem claim_C6_unknown_opcode_skipped :
    execInstr emptyCtx 0 emptySt c6Fr =
      Res.ok emptySt (Step.next { c6Fr with ip := 1 }) ∧
    execLoop emptyCtx 2 emptySt c6Fr = Res.ok emptySt Value.vnull :=
  ⟨rfl, rfl⟩

/-- Claim C7, counterexample: the claim asserts that after a first
successful resolution of a name n, a second Class(n) call returns the
identical class object with no duplicate registry entry and no second
static-initializer run.  With a class-path artifact whose internal name (B)
differs from the looked-up name (A), the first call returns object 1 but
registers it under B, and the second call misses the registry scan, loads
the artifact again and returns a distinct object 2, duplicating the entry;
so the claim as stated fails on the code. -/
theorem claim_C7_counterexample :
    vmClass c7CtxBad 1 initSt "A" = Res.ok c7StB1 1 ∧
    vmClass c7CtxBad 1 c7StB1 "A" = Res.ok c7StB2 2 ∧
    (2 : Nat) ≠ 1 :=
  ⟨rfl, rfl, by decide⟩

/-- Claim C7 (amended): if the first Class(n) call succeeds and its result
is what the registry scan finds first for n (which holds whenever loaded
artifacts carry the name they are looked up under), then a second Class(n)
call returns the identical class object, leaves the whole machine state ---
registry, object store and the record of static-initializer runs ---
unchanged, and in particular does not run any <clinit> again. -/
theorem claim_C7_lookup_idempotent (ctx : Ctx) (fuel fuel2 : Nat) (st st1 : St)
    (n : String) (r : Nat)
    (h1 : vmClass ctx fuel st n = Res.ok st1 r)
    (h2 : firstMatch st1 n = some r) :
    vmClass ctx (fuel2 + 1) st1 n = Res.ok st1 r := by
  show (fnsAt ctx (fuel2 + 1)).klass st1 n = Res.ok st1 r
  simp [fnsAt, vmClassBody, h2]

/-- Witness for the amended claim C7: loading A from a well-named artifact
succeeds, the result is the registry's first match for A, and the second
call returns the same object with the state unchanged. -/
theorem claim_C7_witness :
    vmClass c7CtxG 1 initSt "A" = Res.ok c7StG 1 ∧
    firstMatch c7StG "A" = some 1 ∧
    vmClass c7CtxG 1 c7StG "A" = Res.ok c7StG 1 :=
  ⟨rfl, rfl, claim_C7_lookup_idempotent c7CtxG 1 0 initSt c7StG "A" 1 rfl rfl⟩

/-- Claim C8: the binary reader's error state is sticky --- once the error
is latched, every subsequent read (bytes / u1 / u2 / u4 / u8) consumes no
input, returns a zero or zero-filled value of the requested size, and
leaves the latched error (indeed the whole loader) unchanged. -/
theorem claim_C8_sticky_error (l : Loader) (e : String) (n : Nat)
    (h : l.err = some e) :
    l.bytes n = (List.replicate n 0, l) ∧ l.u1 = (0, l) ∧ l.u2 = (0, l) ∧
    l.u4 = (0, l) ∧ l.u8 = (0, l) := by
  refine ⟨?_, ?_, ?_, ?_, ?_⟩ <;>
    simp [Loader.bytes, Loader.u1, Loader.u2, Loader.u4, Loader.u8, h, be16,
      List.replicate]

/-- Witness for claim C8: a concrete loader with a latched EOF error and
data left over returns zeros and stays unchanged on every read. -/
theorem claim_C8_witness :
    c8L.err = some "EOF" ∧ c8L.bytes 2 = ([0, 0], c8L) ∧ c8L.u2 = (0, c8L) ∧
    c8L.u8 = (0, c8L) :=
  ⟨rfl, (claim_C8_sticky_error c8L "EOF" 2 rfl).1,
    (claim_C8_sticky_error c8L "EOF" 2 rfl).2.2.1,
    (claim_C8_sticky_error c8L "EOF" 2 rfl).2.2.2.2⟩

/-- Claim C9: with 32-bit integers x then y pushed on the operand stack,
IADD pushes x + y and IMUL pushes x * y under two's-complement wrapping
modulo 2^32, and ISUB (which pops a = y first, then b = x) pushes b - a,
that is x - y. -/
theorem claim_C9_int_arith (ctx : Ctx) (fuel : Nat) (st : St) (cr : Nat)
    (locals rest : List Value) (x y : Int) :
    execInstr ctx fuel st
        { classRef := cr, code := [0x60], locals := locals,
          stack := Value.int y :: Value.int x :: rest } =
      Res.ok st (Step.next
        { classRef := cr, ip := 1, code := [0x60], locals := locals,
          stack := Value.int (wrap32 (x + y)) :: rest }) ∧
    execInstr ctx fuel st
        { classRef := cr, code := [0x68], locals := locals,
          stack := Value.int y :: Value.int x :: rest } =
      Res.ok st (Step.next
        { classRef := cr, ip := 1, code := [0x68], locals := locals,
          stack := Value.int (wrap32 (x * y)) :: rest }) ∧
    execInstr ctx fuel st
        { classRef := cr, code := [0x64], locals := locals,
          stack := Value.int y :: Value.int x :: rest } =
      Res.ok st (Step.next
        { classRef := cr, ip := 1, code := [0x64], locals := locals,
          stack := Value.int (wrap32 (x - y)) :: rest }) := by
  refine ⟨?_, ?_, ?_⟩
  · rw [Int.add_comm x y]; exact rfl
  · rw [Int.mul_comm x y]; exact rfl
  · exact rfl

/-- Claim C10: invoking a method with a Code attribute through the shared
callMethod path with more arguments than the declared max_locals crashes
(the copy loop indexes out of bounds; no error value is returned), while
with at most max_locals arguments the copy is in bounds and argument i
lands in local slot i of the frame handed to the dispatch loop. -/
theorem claim_C10_locals_bounds (ctx : Ctx) (fuel : Nat) (st : St) (r : Nat)
    (m : FieldInfo) (a : Attr) (args : List Value)
    (hc : findCode m.attributes = some a) :
    (be16 (a.data.getD 2 0) (a.data.getD 3 0) < args.length →
      callMethod ctx (fuel + 1) st r m args = Res.crash) ∧
    (args.length ≤ be16 (a.data.getD 2 0) (a.data.getD 3 0) →
      ∃ L, callMethod ctx (fuel + 1) st r m args =
          execLoop ctx fuel st
            { classRef := r, ip := 0, code := a.data.drop 8,
              locals := L, stack := [] } ∧
        L.length = be16 (a.data.getD 2 0) (a.data.getD 3 0) ∧
        ∀ i, i < args.length → L.get? i = args.get? i) := by
  constructor
  · intro hgt
    have hne : args ≠ [] := by
      intro hx
      subst hx
      simp at hgt
    have hov : copyInto
        (List.replicate (be16 (a.data.getD 2 0) (a.data.getD 3 0)) Value.vnull)
        0 args = none := by
      apply copyInto_overflow args _ 0 hne
      simp only [List.length_replicate]
      omega
    show callMethodBody ctx (fnsAt ctx fuel) st r m args = Res.crash
    unfold callMethodBody
    rw [hc]
    dsimp only
    rw [hov]
  · intro hle
    obtain ⟨L, hL, hlen, hget, _⟩ :=
      copyInto_ok args
        (List.replicate (be16 (a.data.getD 2 0) (a.data.getD 3 0)) Value.vnull) 0
        (by simp only [List.length_replicate]; omega)
    simp only [List.length_replicate] at hlen
    refine ⟨L, ?_, hlen, fun i hi => by simpa using hget i hi⟩
    show callMethodBody ctx (fnsAt ctx fuel) st r m args = _
    unfold callMethodBody
    rw [hc]
    dsimp only
    rw [hL]
    rfl

/-- Witness for claim C10: the concrete method c10M declares max_locals 1;
calling it with two arguments crashes rather than returning an error. -/
theorem claim_C10_witness :
    callMethod emptyCtx 1 emptySt 0 c10M [Value.int 1, Value.int 2] = Res.crash :=
  (claim_C10_locals_bounds emptyCtx 0 emptySt 0 c10M
      { name := "Code", data := [0, 0, 0, 1, 0, 0, 0, 1, 0xB1] }
      [Value.int 1, Value.int 2] rfl).1 (by decide)
